import Mathlib

/-!
# Verification of the star-trail accumulator (`src/testing/starTrails_mask.py`)

Shallow embedding of `StarTrailGenerator` from `starTrails_mask.py`.
Raster images are modelled as a pixel function over row, column and channel
indices; an image with `channels = 1` models a 2-dimensional numpy array
(grayscale), `channels = 3` a BGR colour array.  8-bit samples are modelled
as natural numbers; well-formed images have every sample `≤ 255`.
Floating-point brightness values are modelled exactly with rationals.

The cv2 primitives used by the source are modelled pixelwise:
`cv2.cvtColor(..., COLOR_BGR2GRAY)` with OpenCV's fixed-point coefficients,
`cv2.mean`, `cv2.threshold(..., THRESH_BINARY)`, `cv2.bitwise_not`,
`cv2.bitwise_and(src, src, mask=m)` and the saturating `cv2.add`.
cv2 raises an exception when the operand shapes disagree (a mask whose size
differs from the array, or `cv2.add` on arrays of different channel
counts); those exception paths are modelled by an error value returned
alongside the state the method mutated before raising.
-/

namespace StarTrails

/-- A decoded raster image: `channels = 1` models a 2-dimensional (grayscale)
numpy array, `channels = 3` a BGR array.  `px r c k` is the sample at row
`r`, column `c`, channel `k` (for grayscale images the channel index is
ignored by all operations, which read channel 0). -/
structure Image where
  height : ℕ
  width : ℕ
  channels : ℕ
  px : ℕ → ℕ → ℕ → ℕ

/-- `numpy.zeros((h, w))` / `numpy.zeros((h, w, 3))`. -/
def Image.zeros (h w c : ℕ) : Image :=
  ⟨h, w, c, fun _ _ _ => 0⟩

/-- A well-formed 8-bit frame: nonempty, 1 or 3 channels, samples `≤ 255`. -/
def Image.WellFormed (img : Image) : Prop :=
  0 < img.height ∧ 0 < img.width ∧ (img.channels = 1 ∨ img.channels = 3) ∧
    ∀ r c k, img.px r c k ≤ 255

/-- `cv2.cvtColor(image, cv2.COLOR_BGR2GRAY)` on a BGR image, with OpenCV's
fixed-point luminance coefficients (R 4899, G 9617, B 1868, 14-bit shift,
rounded); channel 0 is B, channel 1 is G, channel 2 is R. -/
def cvtColorGray (img : Image) : Image :=
  ⟨img.height, img.width, 1, fun r c _ =>
    (img.px r c 2 * 4899 + img.px r c 1 * 9617 + img.px r c 0 * 1868 + 8192) / 16384⟩

/-- Lines 110-113 of the source: grayscale copy if the image is already
2-dimensional, otherwise `cv2.cvtColor(..., COLOR_BGR2GRAY)`. -/
def grayOf (img : Image) : Image :=
  if img.channels = 1 then img else cvtColorGray img

/-- `cv2.mean(image_gray)[0]`: the exact mean of the samples of a grayscale
image, as a rational. -/
def meanB (g : Image) : ℚ :=
  ((Finset.range g.height).sum fun r =>
    (Finset.range g.width).sum fun c => (g.px r c 0 : ℚ)) / (g.height * g.width)

/-- `(image_gray > threshold).sum()`: the number of samples strictly above
the threshold. -/
def countAbove (g : Image) (t : ℕ) : ℕ :=
  (Finset.range g.height).sum fun r =>
    ((Finset.range g.width).filter fun c => t < g.px r c 0).card

/-- `cv2.threshold(g, t, 255, cv2.THRESH_BINARY)`: 255 where the sample is
strictly above `t`, else 0. -/
def thresholdBin (g : Image) (t : ℕ) : Image :=
  ⟨g.height, g.width, 1, fun r c _ => if t < g.px r c 0 then 255 else 0⟩

/-- `cv2.bitwise_not` on an 8-bit mask (every sample of the masks built by
the source is 0 or 255, and `255 - v` is the 8-bit complement for `v ≤ 255`). -/
def bitwiseNot (m : Image) : Image :=
  ⟨m.height, m.width, m.channels, fun r c k => 255 - m.px r c k⟩

/-- `cv2.bitwise_and(src, src, mask=m)`: the source pixel where the mask is
nonzero, 0 elsewhere. -/
def maskAnd (src m : Image) : Image :=
  ⟨src.height, src.width, src.channels, fun r c k =>
    if m.px r c 0 = 0 then 0 else src.px r c k⟩

/-- `cv2.add`: per-channel saturating addition of 8-bit samples. -/
def satAdd (a b : Image) : Image :=
  ⟨a.height, a.width, a.channels, fun r c k => min (a.px r c k + b.px r c k) 255⟩

/-- The mutable fields of `StarTrailGenerator` (constructor, lines 18-32).
`trail_image` and `background_image` are `None` until set; the brightness
fields are exact rationals. -/
structure TrailState where
  max_brightness : ℚ
  mask_threshold : ℕ
  pixel_cutoff_threshold : ℚ
  trail_image : Option Image
  trail_count : ℕ
  pixels_cutoff : Option ℚ
  excluded_images : ℕ
  background_image : Option Image
  background_image_brightness : ℚ
  background_image_min_brightness : ℚ

/-- `StarTrailGenerator.__init__`: defaults 50 / 190 / 0.1, no trail image,
no background image, background score sentinel 255, minimum background
brightness 10. -/
def initState : TrailState :=
  { max_brightness := 50
    mask_threshold := 190
    pixel_cutoff_threshold := 1/10
    trail_image := none
    trail_count := 0
    pixels_cutoff := none
    excluded_images := 0
    background_image := none
    background_image_brightness := 255
    background_image_min_brightness := 10 }

/-- The exceptions `processImage` can raise: `dimensionMismatch` models the
`cv2.error` raised when a frame's raster shape or channel count disagrees
with the trail image's, `invalidState` the `TypeError` of comparing an
integer against a `None` `pixels_cutoff` (unreachable from `initState`,
where `pixels_cutoff` is set together with `trail_image`). -/
inductive ProcessErr where
  | dimensionMismatch
  | invalidState
deriving DecidableEq

/-- Lines 97-106 of the source: on the first frame, derive `pixels_cutoff`
from the frame's pixel count and allocate the all-black trail image with
the frame's height, width and dimensionality.  Returns the updated state
and the current trail image. -/
def establish (s : TrailState) (image : Image) : TrailState × Image :=
  match s.trail_image with
  | some t => (s, t)
  | none =>
    let t := Image.zeros image.height image.width (if image.channels = 1 then 1 else 3)
    ({ s with
        trail_image := some t
        pixels_cutoff :=
          some ((image.height * image.width : ℚ) * (s.pixel_cutoff_threshold / 100)) }, t)

/-- `StarTrailGenerator.processImage` (lines 94-150).  Returns the state the
method left behind together with `some` error when a cv2 call raised (the
state mutations preceding the raise are kept, as the Python object keeps
them). -/
def processImage (s : TrailState) (image : Image) : TrailState × Option ProcessErr :=
  let es := establish s image
  let s1 := es.1
  let t := es.2
  let image_gray := grayOf image
  let m_avg := meanB image_gray
  if m_avg > s1.max_brightness then
    (s1, none)
  else
    match s1.pixels_cutoff with
    | none => (s1, some .invalidState)
    | some cutoff =>
      let pixels_above := (countAbove image_gray s1.mask_threshold : ℚ)
      if pixels_above > cutoff then
        ({ s1 with excluded_images := s1.excluded_images + 1 }, none)
      else
        let s2 := { s1 with trail_count := s1.trail_count + 1 }
        let s3 :=
          if m_avg < s2.background_image_brightness ∧
              m_avg > s2.background_image_min_brightness then
            { s2 with
                background_image_brightness := m_avg
                background_image := some image }
          else s2
        let mask := thresholdBin image_gray s3.mask_threshold
        let mask_inv := bitwiseNot mask
        if t.height = image.height ∧ t.width = image.width then
          let bg_masked := maskAnd t mask_inv
          let stars_masked := maskAnd image mask
          if bg_masked.channels = stars_masked.channels then
            ({ s3 with trail_image := some (satAdd bg_masked stars_masked) }, none)
          else (s3, some .dimensionMismatch)
        else (s3, some .dimensionMismatch)

/-- The failures of `finalize`: the source's `InsufficentData` exception
(spelled as in the source) with its message, and `invalidState` for the
`AttributeError` / `cv2.error` raised when the trail image is absent or the
background image's shape disagrees with the trail image's. -/
inductive FinalizeErr where
  | insufficentData (msg : String)
  | invalidState
deriving DecidableEq

/-- `StarTrailGenerator.finalize` (lines 153-183), up to the point where the
composite is handed to `cv2.imwrite`: the background check comes first,
then the frame-count check against the hard-coded 20, then the composite of
the background candidate and the trail image under the mask of trail
samples strictly above the hard-coded threshold 10. -/
def finalize (s : TrailState) : Except FinalizeErr Image :=
  match s.background_image with
  | none => .error (.insufficentData "Background image not detected")
  | some background =>
    if s.trail_count < 20 then
      .error (.insufficentData "Not enough images found to build star trail")
    else
      match s.trail_image with
      | none => .error .invalidState
      | some trail =>
        let base_image_gray := grayOf trail
        let mask := thresholdBin base_image_gray 10
        let mask_inv := bitwiseNot mask
        if background.height = trail.height ∧ background.width = trail.width then
          let bg_masked := maskAnd background mask_inv
          let stars_masked := maskAnd trail mask
          if bg_masked.channels = stars_masked.channels then
            .ok (satAdd bg_masked stars_masked)
          else .error .invalidState
        else .error .invalidState

/-- Folding `processImage` over a list of frames, keeping only the mutated
state (the caller's loop in `main`, lines 73-81). -/
def runFrames (s : TrailState) (frames : List Image) : TrailState :=
  frames.foldl (fun st img => (processImage st img).1) s

/-- The compositing update written by line 148 of the source for the frame
`image` over the trail image `t`. -/
def newTrail (t image : Image) (thr : ℕ) : Image :=
  satAdd (maskAnd t (bitwiseNot (thresholdBin (grayOf image) thr)))
    (maskAnd image (thresholdBin (grayOf image) thr))

/-- The two exclusion filters of lines 116 and 122-123: a frame is accepted
when its grayscale mean brightness does not exceed `max_brightness` and its
count of samples strictly above `mask_threshold` does not exceed the
`pixels_cutoff` the run established. -/
def Accepted (s : TrailState) (image : Image) : Prop :=
  ¬ meanB (grayOf image) > s.max_brightness ∧
    ∃ q, ((establish s image).1).pixels_cutoff = some q ∧
      ¬ (countAbove (grayOf image) s.mask_threshold : ℚ) > q

/-- Modelled from the spec: the "simple pixelwise selection" of the
refinement claim — the result at each pixel is the star-source sample where
the grayscale of the mask image strictly exceeds the threshold, and the
background-source sample elsewhere. -/
def selectComposite (star bg maskImg : Image) (thr : ℕ) : Image :=
  ⟨bg.height, bg.width, bg.channels, fun r c k =>
    if thr < maskImg.px r c 0 then star.px r c k else bg.px r c k⟩

/-! ## Concrete fixtures used by witnesses and counterexamples -/

/-- A 1×1 grayscale image of constant sample `v`. -/
def img1 (v : ℕ) : Image :=
  ⟨1, 1, 1, fun _ _ _ => v⟩

/-- An established state ready to finalize: 1×1 trail of brightness 20,
1×1 background candidate of brightness 15, 20 accepted frames. -/
def stW : TrailState :=
  { initState with
      trail_image := some (img1 20)
      pixels_cutoff := some 5
      trail_count := 20
      background_image := some (img1 15) }

/-- A 2×2 all-255 frame: overbright (mean 255) and of larger dimensions
than the 1×1 trail of `stW`. -/
def fOverBig : Image :=
  ⟨2, 2, 1, fun _ _ _ => 255⟩

/-- A 1×1 frame of brightness 60: overbright for the default limit 50. -/
def fOver : Image :=
  img1 60

/-- A 2×2 frame with one sample 200 and the rest 0: mean 50 (not
overbright) but one sample above the default mask threshold 190, which
exceeds the first-frame pixel cutoff 0.004. -/
def fSat : Image :=
  ⟨2, 2, 1, fun r c _ => if r = 0 ∧ c = 0 then 200 else 0⟩

/-- A 1×8 frame whose only bright sample (255) sits at column `c0`:
mean 255/8, one sample above the mask threshold. -/
def fStar (c0 : ℕ) : Image :=
  ⟨1, 8, 1, fun _ c _ => if c = c0 then 255 else 0⟩

/-- An established 1×8 state with pixel cutoff 2, used to feed `fStar`
frames in both orders. -/
def stOrd : TrailState :=
  { initState with
      trail_image := some (Image.zeros 1 8 1)
      pixels_cutoff := some 2 }

/-- An established 2×2 state with the pixel cutoff 1/250 the first 2×2
frame would have derived, used to show the saturated path. -/
def stSat : TrailState :=
  { initState with
      trail_image := some (Image.zeros 2 2 1)
      pixels_cutoff := some (1/250) }

/-! ## The end-to-end scenario of the spec (25 single-star frames) -/

/-- The `j`-th synthetic 100×100 single-channel frame of the spec's
end-to-end scenario: all-zero except the single sample 255 at row `j`,
column `j`. -/
def c9frame (j : ℕ) : Image :=
  ⟨100, 100, 1, fun r c _ => if r = j ∧ c = j then 255 else 0⟩

/-- The 25 synthetic frames of the end-to-end scenario. -/
def c9frames : List Image :=
  (List.range 25).map c9frame

/-! ## Basic lemmas about the cv2 models -/

lemma maskAnd_px (src m : Image) (r c k : ℕ) :
    (maskAnd src m).px r c k = if m.px r c 0 = 0 then 0 else src.px r c k := rfl

lemma satAdd_px (a b : Image) (r c k : ℕ) :
    (satAdd a b).px r c k = min (a.px r c k + b.px r c k) 255 := rfl

lemma thresholdBin_px (g : Image) (t r c k : ℕ) :
    (thresholdBin g t).px r c k = if t < g.px r c 0 then 255 else 0 := rfl

lemma bitwiseNot_px (m : Image) (r c k : ℕ) :
    (bitwiseNot m).px r c k = 255 - m.px r c k := rfl

/-- The support of the two operands of the compositing `cv2.add` is
disjoint: at every pixel at least one operand is zero. -/
lemma composite_operands_disjoint (t f g : Image) (thr r c k : ℕ) :
    (maskAnd t (bitwiseNot (thresholdBin g thr))).px r c k = 0 ∨
      (maskAnd f (thresholdBin g thr)).px r c k = 0 := by
  by_cases h : thr < g.px r c 0
  · left
    simp [maskAnd, bitwiseNot, thresholdBin, h]
  · right
    simp [maskAnd, thresholdBin, h]

/-- Pixelwise value of the compositing step
`cv2.add(bitwise_and(t, t, mask=bitwise_not(M)), bitwise_and(f, f, mask=M))`
with `M = threshold(g, thr, 255, THRESH_BINARY)`. -/
lemma composite_px (t f g : Image) (thr r c k : ℕ) :
    (satAdd (maskAnd t (bitwiseNot (thresholdBin g thr)))
        (maskAnd f (thresholdBin g thr))).px r c k
      = if thr < g.px r c 0 then min (f.px r c k) 255 else min (t.px r c k) 255 := by
  by_cases h : thr < g.px r c 0
  · simp [satAdd, maskAnd, bitwiseNot, thresholdBin, h, not_le.mpr h]
  · simp [satAdd, maskAnd, bitwiseNot, thresholdBin, h, not_lt.mp h]

lemma composite_height (t f g : Image) (thr : ℕ) :
    (satAdd (maskAnd t (bitwiseNot (thresholdBin g thr)))
        (maskAnd f (thresholdBin g thr))).height = t.height := rfl

lemma composite_width (t f g : Image) (thr : ℕ) :
    (satAdd (maskAnd t (bitwiseNot (thresholdBin g thr)))
        (maskAnd f (thresholdBin g thr))).width = t.width := rfl

lemma composite_channels (t f g : Image) (thr : ℕ) :
    (satAdd (maskAnd t (bitwiseNot (thresholdBin g thr)))
        (maskAnd f (thresholdBin g thr))).channels = t.channels := rfl

/-! ## Path lemmas for `processImage` -/

lemma establish_some {s : TrailState} {t : Image} (image : Image)
    (ht : s.trail_image = some t) : establish s image = (s, t) := by
  unfold establish
  rw [ht]

lemma establish_none {s : TrailState} (image : Image)
    (ht : s.trail_image = none) :
    establish s image =
      ({ s with
          trail_image := some (Image.zeros image.height image.width
            (if image.channels = 1 then 1 else 3))
          pixels_cutoff :=
            some ((image.height * image.width : ℚ) *
              (s.pixel_cutoff_threshold / 100)) },
        Image.zeros image.height image.width (if image.channels = 1 then 1 else 3)) := by
  unfold establish
  rw [ht]

/-- `establish` never touches the configuration, the counters or the
background fields. -/
lemma establish_fields (s : TrailState) (image : Image) :
    ((establish s image).1).max_brightness = s.max_brightness ∧
    ((establish s image).1).mask_threshold = s.mask_threshold ∧
    ((establish s image).1).pixel_cutoff_threshold = s.pixel_cutoff_threshold ∧
    ((establish s image).1).trail_count = s.trail_count ∧
    ((establish s image).1).excluded_images = s.excluded_images ∧
    ((establish s image).1).background_image = s.background_image ∧
    ((establish s image).1).background_image_brightness = s.background_image_brightness ∧
    ((establish s image).1).background_image_min_brightness =
      s.background_image_min_brightness := by
  unfold establish
  cases h : s.trail_image <;> simp

/-- The overbright path (lines 116-118): the method returns right after the
brightness test, leaving the state as `establish` produced it. -/
lemma processImage_overbright {s : TrailState} {image : Image}
    (hm : meanB (grayOf image) > s.max_brightness) :
    processImage s image = ((establish s image).1, none) := by
  have hmax := (establish_fields s image).1
  simp only [processImage]
  rw [hmax, if_pos hm]

/-- The saturated path (lines 122-126), for a state whose trail image is
already established: only `excluded_images` is incremented. -/
lemma processImage_saturated {s : TrailState} {t : Image} {q : ℚ} {image : Image}
    (ht : s.trail_image = some t) (hq : s.pixels_cutoff = some q)
    (hm : ¬ meanB (grayOf image) > s.max_brightness)
    (hp : (countAbove (grayOf image) s.mask_threshold : ℚ) > q) :
    processImage s image =
      ({ s with excluded_images := s.excluded_images + 1 }, none) := by
  simp only [processImage, establish_some image ht]
  rw [if_neg hm, hq]
  simp only
  rw [if_pos hp]

/-- The accepted path (lines 128-148) when the background-candidate test of
line 130 succeeds, for an established state and a frame of matching shape. -/
lemma processImage_accepted_bgupd {s : TrailState} {t : Image} {q : ℚ} {image : Image}
    (ht : s.trail_image = some t) (hq : s.pixels_cutoff = some q)
    (hm : ¬ meanB (grayOf image) > s.max_brightness)
    (hp : ¬ (countAbove (grayOf image) s.mask_threshold : ℚ) > q)
    (hb : meanB (grayOf image) < s.background_image_brightness ∧
      meanB (grayOf image) > s.background_image_min_brightness)
    (hh : t.height = image.height) (hw : t.width = image.width)
    (hc : t.channels = image.channels) :
    processImage s image =
      ({ s with
          trail_count := s.trail_count + 1
          background_image_brightness := meanB (grayOf image)
          background_image := some image
          trail_image := some (newTrail t image s.mask_threshold) }, none) := by
  simp only [processImage, establish_some image ht, hq]
  rw [if_neg hm]
  rw [if_neg hp]
  rw [if_pos hb, if_pos ⟨hh, hw⟩]
  have hch : (maskAnd t (bitwiseNot (thresholdBin (grayOf image) s.mask_threshold))).channels
      = (maskAnd image (thresholdBin (grayOf image) s.mask_threshold)).channels := hc
  rw [if_pos hch]
  rfl

/-- The accepted path (lines 128-148) when the background-candidate test of
line 130 fails, for an established state and a frame of matching shape. -/
lemma processImage_accepted_nobg {s : TrailState} {t : Image} {q : ℚ} {image : Image}
    (ht : s.trail_image = some t) (hq : s.pixels_cutoff = some q)
    (hm : ¬ meanB (grayOf image) > s.max_brightness)
    (hp : ¬ (countAbove (grayOf image) s.mask_threshold : ℚ) > q)
    (hb : ¬ (meanB (grayOf image) < s.background_image_brightness ∧
      meanB (grayOf image) > s.background_image_min_brightness))
    (hh : t.height = image.height) (hw : t.width = image.width)
    (hc : t.channels = image.channels) :
    processImage s image =
      ({ s with
          trail_count := s.trail_count + 1
          trail_image := some (newTrail t image s.mask_threshold) }, none) := by
  simp only [processImage, establish_some image ht, hq]
  rw [if_neg hm]
  rw [if_neg hp]
  rw [if_neg hb, if_pos ⟨hh, hw⟩]
  have hch : (maskAnd t (bitwiseNot (thresholdBin (grayOf image) s.mask_threshold))).channels
      = (maskAnd image (thresholdBin (grayOf image) s.mask_threshold)).channels := hc
  rw [if_pos hch]
  rfl

/-- The accepted path on a dimension- or channel-mismatched frame: the
counter is incremented and the background candidate possibly replaced
before the cv2 error is raised. -/
lemma processImage_accepted_mismatch {s : TrailState} {t : Image} {q : ℚ} {image : Image}
    (ht : s.trail_image = some t) (hq : s.pixels_cutoff = some q)
    (hm : ¬ meanB (grayOf image) > s.max_brightness)
    (hp : ¬ (countAbove (grayOf image) s.mask_threshold : ℚ) > q)
    (hmis : ¬ (t.height = image.height ∧ t.width = image.width ∧
      t.channels = image.channels)) :
    (processImage s image).2 = some .dimensionMismatch := by
  simp only [processImage, establish_some image ht, hq]
  rw [if_neg hm]
  rw [if_neg hp]
  by_cases hbg : meanB (grayOf image) < s.background_image_brightness ∧
      meanB (grayOf image) > s.background_image_min_brightness
  · rw [if_pos hbg]
    by_cases hd : t.height = image.height ∧ t.width = image.width
    · rw [if_pos hd]
      have hc : ¬ (maskAnd t (bitwiseNot (thresholdBin (grayOf image) s.mask_threshold))).channels
          = (maskAnd image (thresholdBin (grayOf image) s.mask_threshold)).channels := by
        intro hceq
        exact hmis ⟨hd.1, hd.2, hceq⟩
      rw [if_neg hc]
    · rw [if_neg hd]
  · rw [if_neg hbg]
    by_cases hd : t.height = image.height ∧ t.width = image.width
    · rw [if_pos hd]
      have hc : ¬ (maskAnd t (bitwiseNot (thresholdBin (grayOf image) s.mask_threshold))).channels
          = (maskAnd image (thresholdBin (grayOf image) s.mask_threshold)).channels := by
        intro hceq
        exact hmis ⟨hd.1, hd.2, hceq⟩
      rw [if_neg hc]
    · rw [if_neg hd]

/-- `processImage` only reads the state `establish` produced, so a call on
a fresh state equals a call on the established state. -/
lemma processImage_establish (s : TrailState) (image : Image) :
    processImage s image = processImage ((establish s image).1) image := by
  cases h : s.trail_image with
  | some t =>
    rw [establish_some image h]
  | none =>
    have h1 : ((establish s image).1).trail_image
        = some (Image.zeros image.height image.width
            (if image.channels = 1 then 1 else 3)) := by
      rw [establish_none image h]
    simp only [processImage, establish_none image h, establish_some image h1]
    rfl

/-- Pixelwise value of the compositing update. -/
lemma newTrail_px (t image : Image) (thr r c k : ℕ) :
    (newTrail t image thr).px r c k
      = if thr < (grayOf image).px r c 0
          then min (image.px r c k) 255 else min (t.px r c k) 255 := by
  unfold newTrail
  rw [composite_px]

lemma newTrail_height (t image : Image) (thr : ℕ) :
    (newTrail t image thr).height = t.height := rfl

lemma newTrail_width (t image : Image) (thr : ℕ) :
    (newTrail t image thr).width = t.width := rfl

lemma newTrail_channels (t image : Image) (thr : ℕ) :
    (newTrail t image thr).channels = t.channels := rfl

/-- A frame matching the established raster shape and channel count never
makes `processImage` raise. -/
lemma processImage_matching_noerror {s : TrailState} {t : Image} {q : ℚ}
    {image : Image} (ht : s.trail_image = some t) (hq : s.pixels_cutoff = some q)
    (hh : t.height = image.height) (hw : t.width = image.width)
    (hc : t.channels = image.channels) :
    (processImage s image).2 = none := by
  by_cases hm : meanB (grayOf image) > s.max_brightness
  · rw [processImage_overbright hm]
  · by_cases hp : (countAbove (grayOf image) s.mask_threshold : ℚ) > q
    · rw [processImage_saturated ht hq hm hp]
    · by_cases hb : meanB (grayOf image) < s.background_image_brightness ∧
          meanB (grayOf image) > s.background_image_min_brightness
      · rw [processImage_accepted_bgupd ht hq hm hp hb hh hw hc]
      · rw [processImage_accepted_nobg ht hq hm hp hb hh hw hc]

/-- The first call always succeeds on a well-formed frame: the trail image
it establishes matches the frame's shape and channel count. -/
lemma processImage_first_noerror {s : TrailState} {image : Image}
    (ht : s.trail_image = none) (hwf : image.WellFormed) :
    (processImage s image).2 = none := by
  rw [processImage_establish]
  have h1 : ((establish s image).1).trail_image
      = some (Image.zeros image.height image.width
          (if image.channels = 1 then 1 else 3)) := by
    rw [establish_none image ht]
  have h2 : ((establish s image).1).pixels_cutoff
      = some ((image.height * image.width : ℚ) * (s.pixel_cutoff_threshold / 100)) := by
    rw [establish_none image ht]
  have hch : (if image.channels = 1 then 1 else 3) = image.channels := by
    rcases hwf.2.2.1 with h | h <;> simp [h]
  exact processImage_matching_noerror h1 h2 rfl rfl hch

/-- Whatever path `processImage` takes, the background fields either stay
what they were, or the frame passed both filters, its mean brightness lay
strictly inside the open interval, and the frame became the candidate. -/
lemma processImage_background_cases (s : TrailState) (image : Image) :
    ((processImage s image).1.background_image = s.background_image ∧
     (processImage s image).1.background_image_brightness
       = s.background_image_brightness) ∨
    (Accepted s image ∧
     meanB (grayOf image) < s.background_image_brightness ∧
     meanB (grayOf image) > s.background_image_min_brightness ∧
     (processImage s image).1.background_image = some image ∧
     (processImage s image).1.background_image_brightness = meanB (grayOf image)) := by
  obtain ⟨hmax, hmask, hpct, hcnt, hexc, hbg, hbr, hbmin⟩ := establish_fields s image
  simp only [processImage]
  by_cases hm : meanB (grayOf image) > ((establish s image).1).max_brightness
  · rw [if_pos hm]
    exact Or.inl ⟨hbg, hbr⟩
  · rw [if_neg hm]
    cases hq : ((establish s image).1).pixels_cutoff with
    | none => exact Or.inl ⟨hbg, hbr⟩
    | some q =>
      simp only
      by_cases hp : (countAbove (grayOf image) ((establish s image).1).mask_threshold : ℚ) > q
      · rw [if_pos hp]
        exact Or.inl ⟨hbg, hbr⟩
      · rw [if_neg hp]
        by_cases hb : meanB (grayOf image)
              < ((establish s image).1).background_image_brightness ∧
            meanB (grayOf image) > ((establish s image).1).background_image_min_brightness
        · rw [if_pos hb]
          have hacc : Accepted s image := by
            refine ⟨by rw [← hmax]; exact hm, q, hq, ?_⟩
            rw [← hmask]
            exact hp
          have hb' := hb
          rw [hbr, hbmin] at hb'
          by_cases hd : ((establish s image).2).height = image.height ∧
              ((establish s image).2).width = image.width
          · rw [if_pos hd]
            by_cases hcc : (maskAnd ((establish s image).2)
                  (bitwiseNot (thresholdBin (grayOf image)
                    ((establish s image).1).mask_threshold))).channels
                = (maskAnd image (thresholdBin (grayOf image)
                    ((establish s image).1).mask_threshold)).channels
            · rw [if_pos hcc]
              exact Or.inr ⟨hacc, hb'.1, hb'.2, rfl, rfl⟩
            · rw [if_neg hcc]
              exact Or.inr ⟨hacc, hb'.1, hb'.2, rfl, rfl⟩
          · rw [if_neg hd]
            exact Or.inr ⟨hacc, hb'.1, hb'.2, rfl, rfl⟩
        · rw [if_neg hb]
          by_cases hd : ((establish s image).2).height = image.height ∧
              ((establish s image).2).width = image.width
          · rw [if_pos hd]
            by_cases hcc : (maskAnd ((establish s image).2)
                  (bitwiseNot (thresholdBin (grayOf image)
                    ((establish s image).1).mask_threshold))).channels
                = (maskAnd image (thresholdBin (grayOf image)
                    ((establish s image).1).mask_threshold)).channels
            · rw [if_pos hcc]
              exact Or.inl ⟨hbg, hbr⟩
            · rw [if_neg hcc]
              exact Or.inl ⟨hbg, hbr⟩
          · rw [if_neg hd]
            exact Or.inl ⟨hbg, hbr⟩

/-- Single-call monotonicity of the background score. -/
lemma processImage_score_le (s : TrailState) (image : Image) :
    (processImage s image).1.background_image_brightness
      ≤ s.background_image_brightness := by
  rcases processImage_background_cases s image with ⟨_, h⟩ | ⟨_, hlt, _, _, h⟩
  · rw [h]
  · rw [h]
    exact le_of_lt hlt

/-- Monotonicity of the background score over any sequence of frames. -/
lemma runFrames_score_le (s : TrailState) (frames : List Image) :
    (runFrames s frames).background_image_brightness
      ≤ s.background_image_brightness := by
  induction frames generalizing s with
  | nil => exact le_refl _
  | cons f fs ih =>
    calc (runFrames (processImage s f).1 fs).background_image_brightness
        ≤ (processImage s f).1.background_image_brightness := ih _
      _ ≤ s.background_image_brightness := processImage_score_le s f

/-- If the frame passes both filters and its mean brightness lies strictly
inside the open interval, the background candidate is replaced (this
happens before the compositing step, even for a mismatched frame). -/
lemma processImage_bgupd_any {s : TrailState} {q : ℚ} {image : Image}
    (hm : ¬ meanB (grayOf image) > s.max_brightness)
    (hq : ((establish s image).1).pixels_cutoff = some q)
    (hp : ¬ (countAbove (grayOf image) s.mask_threshold : ℚ) > q)
    (hb : meanB (grayOf image) < s.background_image_brightness ∧
      meanB (grayOf image) > s.background_image_min_brightness) :
    (processImage s image).1.background_image = some image ∧
    (processImage s image).1.background_image_brightness = meanB (grayOf image) := by
  obtain ⟨hmax, hmask, hpct, hcnt, hexc, hbg, hbr, hbmin⟩ := establish_fields s image
  simp only [processImage]
  rw [hmax, if_neg hm, hq]
  simp only
  rw [hmask, if_neg hp]
  have hb' : meanB (grayOf image) < ((establish s image).1).background_image_brightness ∧
      meanB (grayOf image) > ((establish s image).1).background_image_min_brightness := by
    rw [hbr, hbmin]
    exact hb
  rw [if_pos hb']
  by_cases hd : ((establish s image).2).height = image.height ∧
      ((establish s image).2).width = image.width
  · rw [if_pos hd]
    by_cases hcc : (maskAnd ((establish s image).2)
          (bitwiseNot (thresholdBin (grayOf image) s.mask_threshold))).channels
        = (maskAnd image (thresholdBin (grayOf image) s.mask_threshold)).channels
    · rw [if_pos hcc]
      exact ⟨rfl, rfl⟩
    · rw [if_neg hcc]
      exact ⟨rfl, rfl⟩
  · rw [if_neg hd]
    exact ⟨rfl, rfl⟩

/-! ## Statistics of the end-to-end scenario frames -/

lemma sum_single_indicator_rat (n j : ℕ) (hj : j < n) (v : ℚ) :
    ((Finset.range n).sum fun r => (Finset.range n).sum fun c =>
      if r = j ∧ c = j then v else 0) = v := by
  have hinner : ∀ r, ((Finset.range n).sum fun c => if r = j ∧ c = j then v else 0)
      = if r = j then v else 0 := by
    intro r
    by_cases hr : r = j
    · simp only [hr, true_and]
      rw [Finset.sum_ite_eq' (Finset.range n) j (fun _ => v)]
      simp [hj]
    · simp [hr]
  rw [Finset.sum_congr rfl fun r _ => hinner r]
  rw [Finset.sum_ite_eq' (Finset.range n) j (fun _ => v)]
  simp [hj]

lemma sum_single_indicator_nat (n j : ℕ) (hj : j < n) (v : ℕ) :
    ((Finset.range n).sum fun r => (Finset.range n).sum fun c =>
      if r = j ∧ c = j then v else 0) = v := by
  have hinner : ∀ r, ((Finset.range n).sum fun c => if r = j ∧ c = j then v else 0)
      = if r = j then v else 0 := by
    intro r
    by_cases hr : r = j
    · simp only [hr, true_and]
      rw [Finset.sum_ite_eq' (Finset.range n) j (fun _ => v)]
      simp [hj]
    · simp [hr]
  rw [Finset.sum_congr rfl fun r _ => hinner r]
  rw [Finset.sum_ite_eq' (Finset.range n) j (fun _ => v)]
  simp [hj]

lemma c9frame_gray (j : ℕ) : grayOf (c9frame j) = c9frame j := by
  simp [grayOf, c9frame]

/-- The mean brightness of a single-star frame is 255/10000 = 51/2000 —
far below the background minimum brightness 10 the spec quotes. -/
lemma c9frame_mean (j : ℕ) (hj : j < 100) :
    meanB (grayOf (c9frame j)) = 51/2000 := by
  rw [c9frame_gray]
  unfold meanB c9frame
  simp only
  have hcast : ∀ r c : ℕ, ((if r = j ∧ c = j then (255:ℕ) else 0 : ℕ) : ℚ)
      = if r = j ∧ c = j then (255:ℚ) else 0 := by
    intro r c
    split <;> simp
  rw [Finset.sum_congr rfl fun r _ => Finset.sum_congr rfl fun c _ => hcast r c]
  rw [sum_single_indicator_rat 100 j hj 255]
  norm_num

/-- A single-star frame has exactly one sample above the mask threshold. -/
lemma c9frame_count (j : ℕ) (hj : j < 100) :
    countAbove (grayOf (c9frame j)) 190 = 1 := by
  rw [c9frame_gray]
  unfold countAbove c9frame
  simp only
  have hcard : ∀ r : ℕ, ((Finset.range 100).filter fun c =>
        190 < if r = j ∧ c = j then 255 else 0).card
      = (Finset.range 100).sum fun c => if r = j ∧ c = j then 1 else 0 := by
    intro r
    rw [Finset.card_filter]
    refine Finset.sum_congr rfl fun c _ => ?_
    by_cases h : r = j ∧ c = j <;> simp [h]
  rw [Finset.sum_congr rfl fun r _ => hcard r]
  rw [sum_single_indicator_nat 100 j hj 1]

/-! ## Runs in which every frame is accepted and too dim to become
the background -/

/-- Feeding a list of matching frames that all pass both filters but are
all too dim for the background-candidate test: the accepted counter grows
by the length of the list and nothing else moves. -/
lemma run_all_accepted_nobg (fs : List Image) :
    ∀ (s : TrailState) (t : Image) (q : ℚ),
    s.trail_image = some t → s.pixels_cutoff = some q →
    (∀ f ∈ fs, ¬ meanB (grayOf f) > s.max_brightness) →
    (∀ f ∈ fs, ¬ (countAbove (grayOf f) s.mask_threshold : ℚ) > q) →
    (∀ f ∈ fs, ¬ meanB (grayOf f) > s.background_image_min_brightness) →
    (∀ f ∈ fs, t.height = f.height ∧ t.width = f.width ∧ t.channels = f.channels) →
    (runFrames s fs).trail_count = s.trail_count + fs.length ∧
    (runFrames s fs).excluded_images = s.excluded_images ∧
    (runFrames s fs).background_image = s.background_image ∧
    (runFrames s fs).background_image_brightness = s.background_image_brightness := by
  induction fs with
  | nil =>
    intro s t q _ _ _ _ _ _
    simp [runFrames]
  | cons f fs ih =>
    intro s t q ht hq hm hp hbm hd
    have hmf := hm f (List.mem_cons_self f fs)
    have hpf := hp f (List.mem_cons_self f fs)
    have hbmf := hbm f (List.mem_cons_self f fs)
    have hdf := hd f (List.mem_cons_self f fs)
    have hb : ¬ (meanB (grayOf f) < s.background_image_brightness ∧
        meanB (grayOf f) > s.background_image_min_brightness) := by
      intro hcontra
      exact hbmf hcontra.2
    have hstep := processImage_accepted_nobg ht hq hmf hpf hb hdf.1 hdf.2.1 hdf.2.2
    have hrw : runFrames s (f :: fs) = runFrames (processImage s f).1 fs := rfl
    have hs1 : (processImage s f).1
        = { s with
            trail_count := s.trail_count + 1
            trail_image := some (newTrail t f s.mask_threshold) } := by
      rw [hstep]
    rw [hrw, hs1]
    obtain ⟨h1, h2, h3, h4⟩ :=
      ih { s with
            trail_count := s.trail_count + 1
            trail_image := some (newTrail t f s.mask_threshold) }
        (newTrail t f s.mask_threshold) q rfl hq
        (fun g hg => hm g (List.mem_cons_of_mem f hg))
        (fun g hg => hp g (List.mem_cons_of_mem f hg))
        (fun g hg => hbm g (List.mem_cons_of_mem f hg))
        (fun g hg => hd g (List.mem_cons_of_mem f hg))
    refine ⟨?_, h2, h3, h4⟩
    rw [h1]
    simp only [List.length_cons]
    omega

/-- Running a nonempty stream of frames from the fresh state, when every
frame is 100×100 single-channel, passes both filters (under the default
configuration) and is too dim for the background test: the count of
accepted frames equals the stream length, nothing is excluded, and no
background candidate is ever chosen. -/
lemma run_from_init (fs : List Image) (hne : fs ≠ [])
    (hdim : ∀ f ∈ fs, f.height = 100 ∧ f.width = 100 ∧ f.channels = 1)
    (hm : ∀ f ∈ fs, ¬ meanB (grayOf f) > 50)
    (hp : ∀ f ∈ fs, ¬ (countAbove (grayOf f) 190 : ℚ) > 10)
    (hbm : ∀ f ∈ fs, ¬ meanB (grayOf f) > 10) :
    (runFrames initState fs).trail_count = fs.length ∧
    (runFrames initState fs).excluded_images = 0 ∧
    (runFrames initState fs).background_image = none ∧
    (runFrames initState fs).background_image_brightness = 255 := by
  cases fs with
  | nil => exact absurd rfl hne
  | cons f rest =>
    have hdf := hdim f (List.mem_cons_self f rest)
    -- the state after the first frame establishes the trail buffer
    have hrw1 : runFrames initState (f :: rest)
        = runFrames ((establish initState f).1) (f :: rest) := by
      show runFrames (processImage initState f).1 rest
        = runFrames (processImage ((establish initState f).1) f).1 rest
      rw [← processImage_establish]
    rw [hrw1]
    have hest : (establish initState f).1
        = { initState with
            trail_image := some (Image.zeros f.height f.width
              (if f.channels = 1 then 1 else 3))
            pixels_cutoff :=
              some ((f.height * f.width : ℚ)
                * (initState.pixel_cutoff_threshold / 100)) } := by
      rw [establish_none f rfl]
    have hq10 : ((f.height * f.width : ℚ) * (initState.pixel_cutoff_threshold / 100)) = 10 := by
      rw [hdf.1, hdf.2.1]
      norm_num [initState]
    obtain ⟨h1, h2, h3, h4⟩ :=
      run_all_accepted_nobg (f :: rest) ((establish initState f).1)
        (Image.zeros f.height f.width (if f.channels = 1 then 1 else 3))
        ((f.height * f.width : ℚ) * (initState.pixel_cutoff_threshold / 100))
        (by rw [hest]) (by rw [hest])
        (by
          intro g hg
          rw [hest]
          exact hm g hg)
        (by
          intro g hg
          rw [hest, hq10]
          exact hp g hg)
        (by
          intro g hg
          rw [hest]
          exact hbm g hg)
        (by
          intro g hg
          obtain ⟨hh, hw, hc⟩ := hdim g hg
          refine ⟨?_, ?_, ?_⟩
          · show f.height = g.height
            rw [hh, hdf.1]
          · show f.width = g.width
            rw [hw, hdf.2.1]
          · show (if f.channels = 1 then 1 else 3) = g.channels
            rw [hc, hdf.2.2]
            rfl)
    refine ⟨?_, ?_, ?_, ?_⟩
    · rw [h1]
      have hc0 : (establish initState f).1.trail_count = 0 := by
        rw [hest]
        rfl
      rw [hc0]
      simp only [List.length_cons]
      omega
    · rw [h2, hest]
      rfl
    · rw [h3, hest]
      rfl
    · rw [h4, hest]
      rfl

/-! ## Path lemmas for `finalize` -/

lemma finalize_noBg {s : TrailState} (h : s.background_image = none) :
    finalize s = .error (.insufficentData "Background image not detected") := by
  unfold finalize
  rw [h]

lemma finalize_fewFrames {s : TrailState} {bg : Image}
    (h : s.background_image = some bg) (hc : s.trail_count < 20) :
    finalize s
      = .error (.insufficentData "Not enough images found to build star trail") := by
  simp only [finalize, h]
  rw [if_pos hc]

lemma finalize_ok {s : TrailState} {bg t : Image}
    (h : s.background_image = some bg) (ht : s.trail_image = some t)
    (hc : ¬ s.trail_count < 20) (hh : bg.height = t.height)
    (hw : bg.width = t.width) (hch : bg.channels = t.channels) :
    finalize s
      = .ok (satAdd (maskAnd bg (bitwiseNot (thresholdBin (grayOf t) 10)))
          (maskAnd t (thresholdBin (grayOf t) 10))) := by
  simp only [finalize, h]
  rw [if_neg hc, ht]
  simp only
  rw [if_pos ⟨hh, hw⟩]
  have hcc : (maskAnd bg (bitwiseNot (thresholdBin (grayOf t) 10))).channels
      = (maskAnd t (thresholdBin (grayOf t) 10)).channels := hch
  rw [if_pos hcc]

/-- The generic saturated path, whether or not the trail image was already
established. -/
lemma processImage_saturated_establish {s : TrailState} {image : Image} {q : ℚ}
    (hm : ¬ meanB (grayOf image) > s.max_brightness)
    (hq : ((establish s image).1).pixels_cutoff = some q)
    (hp : (countAbove (grayOf image) s.mask_threshold : ℚ) > q) :
    processImage s image
      = ({ (establish s image).1 with
            excluded_images := ((establish s image).1).excluded_images + 1 }, none) := by
  obtain ⟨hmax, hmask, hpct, hcnt, hexc, hbg, hbr, hbmin⟩ := establish_fields s image
  simp only [processImage]
  rw [hmax, if_neg hm, hq]
  simp only
  rw [hmask, if_pos hp]

/-- The trail buffer and the configuration after an accepted matching
frame, in either background branch. -/
lemma processImage_accepted_result {s : TrailState} {t : Image} {q : ℚ} {image : Image}
    (ht : s.trail_image = some t) (hq : s.pixels_cutoff = some q)
    (hm : ¬ meanB (grayOf image) > s.max_brightness)
    (hp : ¬ (countAbove (grayOf image) s.mask_threshold : ℚ) > q)
    (hh : t.height = image.height) (hw : t.width = image.width)
    (hc : t.channels = image.channels) :
    (processImage s image).1.trail_image = some (newTrail t image s.mask_threshold) ∧
    (processImage s image).1.pixels_cutoff = s.pixels_cutoff ∧
    (processImage s image).1.max_brightness = s.max_brightness ∧
    (processImage s image).1.mask_threshold = s.mask_threshold := by
  by_cases hb : meanB (grayOf image) < s.background_image_brightness ∧
      meanB (grayOf image) > s.background_image_min_brightness
  · rw [processImage_accepted_bgupd ht hq hm hp hb hh hw hc]
    exact ⟨rfl, rfl, rfl, rfl⟩
  · rw [processImage_accepted_nobg ht hq hm hp hb hh hw hc]
    exact ⟨rfl, rfl, rfl, rfl⟩

/-- Inversion of a successful `finalize`: the output must be the composite
of the background candidate and the trail image under the threshold-10
mask. -/
lemma finalize_ok_inv {s : TrailState} {t bg out : Image}
    (ht : s.trail_image = some t) (hbg : s.background_image = some bg)
    (hok : finalize s = .ok out) :
    out = satAdd (maskAnd bg (bitwiseNot (thresholdBin (grayOf t) 10)))
        (maskAnd t (thresholdBin (grayOf t) 10)) := by
  by_cases hc : s.trail_count < 20
  · rw [finalize_fewFrames hbg hc] at hok
    exact absurd hok (by simp)
  · simp only [finalize, hbg] at hok
    rw [if_neg hc, ht] at hok
    simp only at hok
    by_cases hd : bg.height = t.height ∧ bg.width = t.width
    · rw [if_pos hd] at hok
      by_cases hcc : (maskAnd bg (bitwiseNot (thresholdBin (grayOf t) 10))).channels
          = (maskAnd t (thresholdBin (grayOf t) 10)).channels
      · rw [if_pos hcc] at hok
        exact (Except.ok.injEq _ _ ▸ hok).symm
      · rw [if_neg hcc] at hok
        exact absurd hok (by simp)
    · rw [if_neg hd] at hok
      exact absurd hok (by simp)

/-! ## Claim theorems -/

/-- C2: `finalize` fails with `InsufficentData` when the background
candidate is absent — this check comes first, regardless of the accepted
count; otherwise it fails with `InsufficentData` when the accepted count is
strictly below 20 (so 19 accepted frames fail); with a background candidate
present, a shape-compatible trail image and exactly 20 accepted frames it
succeeds and returns the composite. -/
theorem C2_finalize_checks (s : TrailState) :
    (s.background_image = none →
      finalize s = .error (.insufficentData "Background image not detected"))
    ∧ (∀ bg, s.background_image = some bg → s.trail_count < 20 →
        finalize s
          = .error (.insufficentData "Not enough images found to build star trail"))
    ∧ (∀ bg t, s.background_image = some bg → s.trail_image = some t →
        s.trail_count = 20 →
        bg.height = t.height → bg.width = t.width → bg.channels = t.channels →
        ∃ out, finalize s = .ok out) := by
  refine ⟨fun h => finalize_noBg h, fun bg h hc => finalize_fewFrames h hc, ?_⟩
  intro bg t h ht hc hh hw hch
  refine ⟨_, finalize_ok h ht ?_ hh hw hch⟩
  rw [hc]
  norm_num

/-- C2 witness: a state with a 1×1 background candidate, a 1×1 trail image
and exactly 20 accepted frames finalizes successfully. -/
theorem C2_witness : ∃ out, finalize stW = .ok out :=
  (C2_finalize_checks stW).2.2 (img1 15) (img1 20) rfl rfl rfl rfl rfl rfl

/-- C5: whenever `finalize` succeeds, the final mask marks trail pixels
whose grayscale value strictly exceeds the fixed constant 10 (whatever the
configurable `mask_threshold` of the state is), and the output is the
background candidate masked by the complement plus the trail buffer masked
by the mask under saturating addition. -/
theorem C5_finalize_fixed_threshold (s : TrailState) (t bg out : Image)
    (ht : s.trail_image = some t) (hbg : s.background_image = some bg)
    (hok : finalize s = .ok out) :
    out = satAdd (maskAnd bg (bitwiseNot (thresholdBin (grayOf t) 10)))
        (maskAnd t (thresholdBin (grayOf t) 10))
    ∧ ∀ r c k, out.px r c k
        = if 10 < (grayOf t).px r c 0
            then min (t.px r c k) 255 else min (bg.px r c k) 255 := by
  have hout := finalize_ok_inv ht hbg hok
  refine ⟨hout, fun r c k => ?_⟩
  rw [hout]
  exact composite_px bg t (grayOf t) 10 r c k

/-- C5 witness: on the concrete state `stW` finalize succeeds and the
pixelwise characterization holds. -/
theorem C5_witness :
    (satAdd (maskAnd (img1 15) (bitwiseNot (thresholdBin (grayOf (img1 20)) 10)))
        (maskAnd (img1 20) (thresholdBin (grayOf (img1 20)) 10)))
      = satAdd (maskAnd (img1 15) (bitwiseNot (thresholdBin (grayOf (img1 20)) 10)))
          (maskAnd (img1 20) (thresholdBin (grayOf (img1 20)) 10))
    ∧ ∀ r c k,
        (satAdd (maskAnd (img1 15) (bitwiseNot (thresholdBin (grayOf (img1 20)) 10)))
          (maskAnd (img1 20) (thresholdBin (grayOf (img1 20)) 10))).px r c k
        = if 10 < (grayOf (img1 20)).px r c 0
            then min ((img1 20).px r c k) 255 else min ((img1 15).px r c k) 255 :=
  C5_finalize_fixed_threshold stW (img1 20) (img1 15) _ rfl rfl
    (finalize_ok rfl rfl (by norm_num [stW]) rfl rfl rfl)

/-- The first call both succeeds and establishes the trail buffer with the
frame's dimensions and channel count. -/
lemma processImage_first_establishes {s : TrailState} {f : Image}
    (ht : s.trail_image = none) (hwf : f.WellFormed) :
    (processImage s f).2 = none ∧
    ∃ t', (processImage s f).1.trail_image = some t' ∧
      t'.height = f.height ∧ t'.width = f.width ∧ t'.channels = f.channels := by
  have hch : (if f.channels = 1 then 1 else 3) = f.channels := by
    rcases hwf.2.2.1 with h | h <;> simp [h]
  rw [processImage_establish]
  have h1 : ((establish s f).1).trail_image
      = some (Image.zeros f.height f.width (if f.channels = 1 then 1 else 3)) := by
    rw [establish_none f ht]
  have h2 : ((establish s f).1).pixels_cutoff
      = some ((f.height * f.width : ℚ) * (s.pixel_cutoff_threshold / 100)) := by
    rw [establish_none f ht]
  by_cases hm : meanB (grayOf f) > ((establish s f).1).max_brightness
  · rw [processImage_overbright hm]
    refine ⟨rfl, Image.zeros f.height f.width (if f.channels = 1 then 1 else 3),
      ?_, rfl, rfl, hch⟩
    rw [establish_some f h1]
    exact h1
  · by_cases hp : (countAbove (grayOf f) ((establish s f).1).mask_threshold : ℚ)
        > (f.height * f.width : ℚ) * (s.pixel_cutoff_threshold / 100)
    · rw [processImage_saturated h1 h2 hm hp]
      exact ⟨rfl, Image.zeros f.height f.width (if f.channels = 1 then 1 else 3),
        h1, rfl, rfl, hch⟩
    · obtain ⟨htr, _, _, _⟩ := processImage_accepted_result h1 h2 hm hp rfl rfl hch
      exact ⟨processImage_matching_noerror h1 h2 rfl rfl hch,
        newTrail (Image.zeros f.height f.width (if f.channels = 1 then 1 else 3)) f
          ((establish s f).1).mask_threshold,
        htr, rfl, rfl, hch⟩

/-- C1 (amended): the first call on a well-formed frame always succeeds and
establishes dimensions; on an established state a frame matching the
established dimensions and channel count never fails; a mismatched frame
makes `processImage` fail with the dimension-mismatch error only when it
passes both exclusion filters — an overbright or saturated mismatched
frame returns its exclusion outcome without any error. -/
theorem C1_dimension_errors (s : TrailState) (f : Image) (hwf : f.WellFormed) :
    (s.trail_image = none → (processImage s f).2 = none ∧
      ∃ t', (processImage s f).1.trail_image = some t' ∧
        t'.height = f.height ∧ t'.width = f.width ∧ t'.channels = f.channels)
    ∧ (meanB (grayOf f) > s.max_brightness → (processImage s f).2 = none)
    ∧ ∀ t q, s.trail_image = some t → s.pixels_cutoff = some q →
        ((t.height = f.height ∧ t.width = f.width ∧ t.channels = f.channels) →
          (processImage s f).2 = none)
        ∧ (¬ meanB (grayOf f) > s.max_brightness →
            (countAbove (grayOf f) s.mask_threshold : ℚ) > q →
            (processImage s f).2 = none)
        ∧ (¬ meanB (grayOf f) > s.max_brightness →
            ¬ (countAbove (grayOf f) s.mask_threshold : ℚ) > q →
            ¬ (t.height = f.height ∧ t.width = f.width ∧ t.channels = f.channels) →
            (processImage s f).2 = some ProcessErr.dimensionMismatch) := by
  refine ⟨fun ht => processImage_first_establishes ht hwf, ?_, ?_⟩
  · intro hm
    rw [processImage_overbright hm]
  · intro t q ht hq
    refine ⟨fun hd => processImage_matching_noerror ht hq hd.1 hd.2.1 hd.2.2, ?_, ?_⟩
    · intro hm hp
      rw [processImage_saturated ht hq hm hp]
    · intro hm hp hmis
      exact processImage_accepted_mismatch ht hq hm hp hmis

/-- C1 witness: the amended behaviour at concrete inputs — the first call
on a well-formed 1×1 frame succeeds. -/
theorem C1_witness :
    (processImage initState (img1 30)).2 = none ∧
    ∃ t', (processImage initState (img1 30)).1.trail_image = some t' ∧
      t'.height = (img1 30).height ∧ t'.width = (img1 30).width ∧
      t'.channels = (img1 30).channels :=
  (C1_dimension_errors initState (img1 30)
    ⟨by norm_num [img1], by norm_num [img1],
      Or.inl rfl, fun _ _ _ => by norm_num [img1]⟩).1 rfl

/-- C1 counterexample: on the state `stW` (trail established at 1×1), the
mismatched 2×2 frame `fOverBig` is overbright, so `processImage` returns
without any error even though the dimensions disagree — refuting the claim
that every mismatched frame yields a dimension-mismatch error. -/
theorem C1_counterexample :
    stW.trail_image = some (img1 20)
    ∧ ¬ ((img1 20).height = fOverBig.height ∧ (img1 20).width = fOverBig.width ∧
        (img1 20).channels = fOverBig.channels)
    ∧ (processImage stW fOverBig).2 = none := by
  have hm : meanB (grayOf fOverBig) > stW.max_brightness := by
    norm_num [meanB, grayOf, fOverBig, stW, initState, Finset.sum_range_succ]
  refine ⟨rfl, ?_, ?_⟩
  · intro h
    have : (1 : ℕ) = 2 := h.1
    norm_num at this
  · rw [processImage_overbright hm]

/-- C3: for every accepted frame of matching shape, the compositing update
writes, at each pixel, the saturating sum of the old trail sample kept
where the frame's grayscale does not exceed `mask_threshold` (the
complement mask) and the frame's sample taken where it does (the star
mask). -/
theorem C3_compositing_update (s : TrailState) (t : Image) (q : ℚ) (f : Image)
    (ht : s.trail_image = some t) (hq : s.pixels_cutoff = some q)
    (hm : ¬ meanB (grayOf f) > s.max_brightness)
    (hp : ¬ (countAbove (grayOf f) s.mask_threshold : ℚ) > q)
    (hh : t.height = f.height) (hw : t.width = f.width)
    (hc : t.channels = f.channels) :
    ∃ t', (processImage s f).1.trail_image = some t' ∧
      ∀ r c k, t'.px r c k
        = min ((if s.mask_threshold < (grayOf f).px r c 0 then 0 else t.px r c k)
            + (if s.mask_threshold < (grayOf f).px r c 0 then f.px r c k else 0)) 255 := by
  obtain ⟨htr, _, _, _⟩ := processImage_accepted_result ht hq hm hp hh hw hc
  refine ⟨newTrail t f s.mask_threshold, htr, fun r c k => ?_⟩
  rw [newTrail_px]
  by_cases hx : s.mask_threshold < (grayOf f).px r c 0 <;> simp [hx]

/-- C3 witness: the compositing equation at a concrete accepted frame. -/
theorem C3_witness :
    ∃ t', (processImage stW (img1 30)).1.trail_image = some t' ∧
      ∀ r c k, t'.px r c k
        = min ((if stW.mask_threshold < (grayOf (img1 30)).px r c 0
                then 0 else (img1 20).px r c k)
            + (if stW.mask_threshold < (grayOf (img1 30)).px r c 0
                then (img1 30).px r c k else 0)) 255 :=
  C3_compositing_update stW (img1 20) 5 (img1 30) rfl rfl
    (by norm_num [meanB, grayOf, img1, stW, initState, Finset.sum_range_succ])
    (by
      have h : countAbove (grayOf (img1 30)) stW.mask_threshold = 0 := by decide
      rw [h]
      norm_num)
    rfl rfl rfl

/-- C4: across every sequence of `processImage` calls the background score
never increases; a single call either leaves the background candidate and
score untouched, or the frame passed both filters with a mean brightness
strictly inside the open interval (`background_image_min_brightness`,
current score), in which case the score becomes that mean and the candidate
becomes that frame's full buffer; and conversely every accepted frame whose
mean lies strictly inside the interval performs exactly that replacement. -/
theorem C4_background_monotone :
    (∀ (s : TrailState) (frames : List Image),
      (runFrames s frames).background_image_brightness
        ≤ s.background_image_brightness)
    ∧ (∀ (s : TrailState) (f : Image),
        ((processImage s f).1.background_image = s.background_image ∧
         (processImage s f).1.background_image_brightness
           = s.background_image_brightness)
        ∨ (Accepted s f ∧
           s.background_image_min_brightness < meanB (grayOf f) ∧
           meanB (grayOf f) < s.background_image_brightness ∧
           (processImage s f).1.background_image = some f ∧
           (processImage s f).1.background_image_brightness = meanB (grayOf f)))
    ∧ (∀ (s : TrailState) (f : Image), Accepted s f →
        s.background_image_min_brightness < meanB (grayOf f) →
        meanB (grayOf f) < s.background_image_brightness →
        (processImage s f).1.background_image = some f ∧
        (processImage s f).1.background_image_brightness = meanB (grayOf f)) := by
  refine ⟨runFrames_score_le, ?_, ?_⟩
  · intro s f
    rcases processImage_background_cases s f with h | ⟨hacc, hlt, hgt, h1, h2⟩
    · exact Or.inl h
    · exact Or.inr ⟨hacc, hgt, hlt, h1, h2⟩
  · intro s f hacc hgt hlt
    obtain ⟨hm, q, hq, hp⟩ := hacc
    exact processImage_bgupd_any hm hq hp ⟨hlt, hgt⟩

/-- C4 witness: the concrete accepted 1×1 frame of brightness 30 replaces
the background candidate of the state `stW` (score 255). -/
theorem C4_witness :
    (processImage stW (img1 30)).1.background_image = some (img1 30) ∧
    (processImage stW (img1 30)).1.background_image_brightness
      = meanB (grayOf (img1 30)) :=
  (C4_background_monotone).2.2 stW (img1 30)
    ⟨by norm_num [meanB, grayOf, img1, stW, initState, Finset.sum_range_succ],
      5, rfl,
      by
        have h : countAbove (grayOf (img1 30)) stW.mask_threshold = 0 := by decide
        rw [h]
        norm_num⟩
    (by norm_num [meanB, grayOf, img1, stW, initState, Finset.sum_range_succ])
    (by norm_num [meanB, grayOf, img1, stW, initState, Finset.sum_range_succ])

/-- C6 (amended): an overbright frame (mean strictly above
`max_brightness`) leaves the background candidate, the background score and
both counters unchanged, and leaves the trail buffer unchanged on every
call after the first; on the first call of a run, however, the trail buffer
is allocated (all-zero, with the frame's shape) before the brightness test,
so it changes from absent to present even for an overbright frame. -/
theorem C6_overbright_skip (s : TrailState) (f : Image)
    (hm : meanB (grayOf f) > s.max_brightness) :
    (processImage s f).2 = none ∧
    (processImage s f).1.background_image = s.background_image ∧
    (processImage s f).1.background_image_brightness
      = s.background_image_brightness ∧
    (processImage s f).1.trail_count = s.trail_count ∧
    (processImage s f).1.excluded_images = s.excluded_images ∧
    (∀ t, s.trail_image = some t → (processImage s f).1.trail_image = some t) ∧
    (s.trail_image = none →
      (processImage s f).1.trail_image
        = some (Image.zeros f.height f.width (if f.channels = 1 then 1 else 3))) := by
  obtain ⟨hmax, hmask, hpct, hcnt, hexc, hbg, hbr, hbmin⟩ := establish_fields s f
  rw [processImage_overbright hm]
  refine ⟨rfl, hbg, hbr, hcnt, hexc, ?_, ?_⟩
  · intro t ht
    rw [establish_some f ht]
    exact ht
  · intro ht
    rw [establish_none f ht]

/-- C6 witness: a 1×1 frame of brightness 60 on the established state `stW`
changes nothing. -/
theorem C6_witness :
    (processImage stW fOver).2 = none ∧
    (processImage stW fOver).1.background_image = stW.background_image ∧
    (processImage stW fOver).1.background_image_brightness
      = stW.background_image_brightness ∧
    (processImage stW fOver).1.trail_count = stW.trail_count ∧
    (processImage stW fOver).1.excluded_images = stW.excluded_images ∧
    (∀ t, stW.trail_image = some t → (processImage stW fOver).1.trail_image = some t) ∧
    (stW.trail_image = none →
      (processImage stW fOver).1.trail_image
        = some (Image.zeros fOver.height fOver.width
            (if fOver.channels = 1 then 1 else 3))) :=
  C6_overbright_skip stW fOver
    (by norm_num [meanB, grayOf, fOver, img1, stW, initState, Finset.sum_range_succ])

/-- C6 counterexample: on the very first call of a run, an overbright frame
does change the trail buffer — it is allocated before the brightness test —
refuting the claim's parenthetical "including on the first call". -/
theorem C6_counterexample :
    meanB (grayOf fOver) > initState.max_brightness ∧
    initState.trail_image = none ∧
    (processImage initState fOver).1.trail_image ≠ none := by
  have hm : meanB (grayOf fOver) > initState.max_brightness := by
    norm_num [meanB, grayOf, fOver, img1, initState, Finset.sum_range_succ]
  refine ⟨hm, rfl, ?_⟩
  rw [processImage_overbright hm, establish_none fOver rfl]
  simp

/-- C7 (amended): a frame that passes the brightness filter but whose count
of samples above `mask_threshold` exceeds the pixel cutoff increments
`excluded_images` by exactly one and leaves the accepted count, the
background candidate and the background score unchanged; the trail buffer
is also unchanged on every call after the first, but on the first call of a
run it is allocated (all-zero) before the filters run. -/
theorem C7_saturated_skip (s : TrailState) (f : Image) (q : ℚ)
    (hm : ¬ meanB (grayOf f) > s.max_brightness)
    (hq : ((establish s f).1).pixels_cutoff = some q)
    (hp : (countAbove (grayOf f) s.mask_threshold : ℚ) > q) :
    (processImage s f).2 = none ∧
    (processImage s f).1.excluded_images = s.excluded_images + 1 ∧
    (processImage s f).1.trail_count = s.trail_count ∧
    (processImage s f).1.background_image = s.background_image ∧
    (processImage s f).1.background_image_brightness
      = s.background_image_brightness ∧
    (∀ t, s.trail_image = some t → (processImage s f).1.trail_image = some t) ∧
    (s.trail_image = none →
      (processImage s f).1.trail_image
        = some (Image.zeros f.height f.width (if f.channels = 1 then 1 else 3))) := by
  obtain ⟨hmax, hmask, hpct, hcnt, hexc, hbg, hbr, hbmin⟩ := establish_fields s f
  rw [processImage_saturated_establish hm hq hp]
  refine ⟨rfl, ?_, hcnt, hbg, hbr, ?_, ?_⟩
  · show ((establish s f).1).excluded_images + 1 = s.excluded_images + 1
    rw [hexc]
  · intro t ht
    show ((establish s f).1).trail_image = some t
    rw [establish_some f ht]
    exact ht
  · intro ht
    show ((establish s f).1).trail_image = some _
    rw [establish_none f ht]

/-- C7 witness: a saturated 2×2 frame on the established state `stOrd`
increments only the excluded counter. -/
theorem C7_witness :
    (processImage stSat fSat).2 = none ∧
    (processImage stSat fSat).1.excluded_images = stSat.excluded_images + 1 ∧
    (processImage stSat fSat).1.trail_count = stSat.trail_count ∧
    (processImage stSat fSat).1.background_image = stSat.background_image ∧
    (processImage stSat fSat).1.background_image_brightness
      = stSat.background_image_brightness ∧
    (∀ t, stSat.trail_image = some t →
      (processImage stSat fSat).1.trail_image = some t) ∧
    (stSat.trail_image = none →
      (processImage stSat fSat).1.trail_image
        = some (Image.zeros fSat.height fSat.width
            (if fSat.channels = 1 then 1 else 3))) :=
  C7_saturated_skip stSat fSat (1/250)
    (by norm_num [meanB, grayOf, fSat, stSat, initState, Finset.sum_range_succ])
    rfl
    (by
      have h : countAbove (grayOf fSat) stSat.mask_threshold = 1 := by decide
      rw [h]
      norm_num)

/-- C7 counterexample: a saturated frame fed as the very first frame of a
run increments `excluded_images` by one but also changes the trail buffer
(from absent to the freshly allocated zero buffer), refuting the claim that
such a frame changes nothing but the excluded counter. -/
theorem C7_counterexample :
    ¬ meanB (grayOf fSat) > initState.max_brightness ∧
    ((establish initState fSat).1).pixels_cutoff = some (1/250) ∧
    (countAbove (grayOf fSat) initState.mask_threshold : ℚ) > 1/250 ∧
    (processImage initState fSat).1.excluded_images
      = initState.excluded_images + 1 ∧
    initState.trail_image = none ∧
    (processImage initState fSat).1.trail_image ≠ none := by
  have hm : ¬ meanB (grayOf fSat) > initState.max_brightness := by
    norm_num [meanB, grayOf, fSat, initState, Finset.sum_range_succ]
  have hq : ((establish initState fSat).1).pixels_cutoff = some (1/250) := by
    rw [establish_none fSat rfl]
    norm_num [initState, fSat]
  have hcount : countAbove (grayOf fSat) initState.mask_threshold = 1 := by decide
  have hp : (countAbove (grayOf fSat) initState.mask_threshold : ℚ) > 1/250 := by
    rw [hcount]
    norm_num
  refine ⟨hm, hq, hp, ?_, rfl, ?_⟩
  · rw [processImage_saturated_establish hm hq hp]
    show ((establish initState fSat).1).excluded_images + 1
      = initState.excluded_images + 1
    rw [establish_none fSat rfl]
  · rw [processImage_saturated_establish hm hq hp]
    show ((establish initState fSat).1).trail_image ≠ none
    rw [establish_none fSat rfl]
    simp

/-- C8: two same-shaped accepted frames fed in either order from the same
established state produce the same trail-buffer content when their star
masks (grayscale strictly above `mask_threshold`) are disjoint; at a pixel
where both masks are set, the resulting trail sample equals the later-fed
frame's sample. -/
theorem C8_order_commutes (s : TrailState) (t : Image) (q : ℚ) (a b : Image)
    (ht : s.trail_image = some t) (hq : s.pixels_cutoff = some q)
    (hma : ¬ meanB (grayOf a) > s.max_brightness)
    (hpa : ¬ (countAbove (grayOf a) s.mask_threshold : ℚ) > q)
    (hmb : ¬ meanB (grayOf b) > s.max_brightness)
    (hpb : ¬ (countAbove (grayOf b) s.mask_threshold : ℚ) > q)
    (hha : t.height = a.height) (hwa : t.width = a.width)
    (hca : t.channels = a.channels)
    (hhb : t.height = b.height) (hwb : t.width = b.width)
    (hcb : t.channels = b.channels) :
    ∃ tab tba,
      (processImage (processImage s a).1 b).1.trail_image = some tab ∧
      (processImage (processImage s b).1 a).1.trail_image = some tba ∧
      ((∀ r c, ¬ (s.mask_threshold < (grayOf a).px r c 0 ∧
          s.mask_threshold < (grayOf b).px r c 0)) →
        ∀ r c k, tab.px r c k = tba.px r c k) ∧
      ((∀ r c k, b.px r c k ≤ 255) →
        ∀ r c k, s.mask_threshold < (grayOf a).px r c 0 →
          s.mask_threshold < (grayOf b).px r c 0 →
          tab.px r c k = b.px r c k) := by
  obtain ⟨hta, hqa, hmaxa, hmaska⟩ :=
    processImage_accepted_result ht hq hma hpa hha hwa hca
  obtain ⟨htb, hqb, hmaxb, hmaskb⟩ :=
    processImage_accepted_result ht hq hmb hpb hhb hwb hcb
  have hq1a : (processImage s a).1.pixels_cutoff = some q := by
    rw [hqa]
    exact hq
  have hq1b : (processImage s b).1.pixels_cutoff = some q := by
    rw [hqb]
    exact hq
  have hmb1 : ¬ meanB (grayOf b) > (processImage s a).1.max_brightness := by
    rw [hmaxa]
    exact hmb
  have hpb1 : ¬ (countAbove (grayOf b) (processImage s a).1.mask_threshold : ℚ) > q := by
    rw [hmaska]
    exact hpb
  have hma1 : ¬ meanB (grayOf a) > (processImage s b).1.max_brightness := by
    rw [hmaxb]
    exact hma
  have hpa1 : ¬ (countAbove (grayOf a) (processImage s b).1.mask_threshold : ℚ) > q := by
    rw [hmaskb]
    exact hpa
  obtain ⟨htab, _, _, _⟩ :=
    processImage_accepted_result hta hq1a hmb1 hpb1 hhb hwb hcb
  obtain ⟨htba, _, _, _⟩ :=
    processImage_accepted_result htb hq1b hma1 hpa1 hha hwa hca
  rw [hmaska] at htab
  rw [hmaskb] at htba
  refine ⟨newTrail (newTrail t a s.mask_threshold) b s.mask_threshold,
    newTrail (newTrail t b s.mask_threshold) a s.mask_threshold,
    htab, htba, ?_, ?_⟩
  · intro hdisj r c k
    by_cases hA : s.mask_threshold < (grayOf a).px r c 0 <;>
      by_cases hB : s.mask_threshold < (grayOf b).px r c 0
    · exact absurd ⟨hA, hB⟩ (hdisj r c)
    · simp [newTrail_px, hA, hB, Nat.min_assoc]
    · simp [newTrail_px, hA, hB, Nat.min_assoc]
    · simp [newTrail_px, hA, hB]
  · intro hble r c k hA hB
    rw [newTrail_px]
    rw [if_pos hB]
    exact Nat.min_eq_left (hble r c k)

/-- C8 witness: two 1×8 single-star frames with disjoint star positions on
the established state `stOrd`, in both orders. -/
theorem C8_witness :
    ∃ tab tba,
      (processImage (processImage stOrd (fStar 0)).1 (fStar 1)).1.trail_image
        = some tab ∧
      (processImage (processImage stOrd (fStar 1)).1 (fStar 0)).1.trail_image
        = some tba ∧
      ((∀ r c, ¬ (stOrd.mask_threshold < (grayOf (fStar 0)).px r c 0 ∧
          stOrd.mask_threshold < (grayOf (fStar 1)).px r c 0)) →
        ∀ r c k, tab.px r c k = tba.px r c k) ∧
      ((∀ r c k, (fStar 1).px r c k ≤ 255) →
        ∀ r c k, stOrd.mask_threshold < (grayOf (fStar 0)).px r c 0 →
          stOrd.mask_threshold < (grayOf (fStar 1)).px r c 0 →
          tab.px r c k = (fStar 1).px r c k) :=
  C8_order_commutes stOrd (Image.zeros 1 8 1) 2 (fStar 0) (fStar 1) rfl rfl
    (by norm_num [meanB, grayOf, fStar, stOrd, initState, Finset.sum_range_succ])
    (by
      have h : countAbove (grayOf (fStar 0)) stOrd.mask_threshold = 1 := by decide
      rw [h]
      norm_num)
    (by norm_num [meanB, grayOf, fStar, stOrd, initState, Finset.sum_range_succ])
    (by
      have h : countAbove (grayOf (fStar 1)) stOrd.mask_threshold = 1 := by decide
      rw [h]
      norm_num)
    rfl rfl rfl rfl rfl rfl

/-- The facts shared by the end-to-end scenario theorems: all 25 synthetic
frames are accepted, none is excluded, and no background candidate is ever
selected because every frame's mean brightness (51/2000) is below the
background minimum brightness 10. -/
lemma c9_run_facts :
    (runFrames initState c9frames).trail_count = 25 ∧
    (runFrames initState c9frames).excluded_images = 0 ∧
    (runFrames initState c9frames).background_image = none := by
  have hmem : ∀ f ∈ c9frames, ∃ j, j < 25 ∧ f = c9frame j := by
    intro f hf
    simp only [c9frames, List.mem_map, List.mem_range] at hf
    obtain ⟨j, hj, rfl⟩ := hf
    exact ⟨j, hj, rfl⟩
  have hdim : ∀ f ∈ c9frames, f.height = 100 ∧ f.width = 100 ∧ f.channels = 1 := by
    intro f hf
    obtain ⟨j, hj, rfl⟩ := hmem f hf
    exact ⟨rfl, rfl, rfl⟩
  have hm : ∀ f ∈ c9frames, ¬ meanB (grayOf f) > 50 := by
    intro f hf
    obtain ⟨j, hj, rfl⟩ := hmem f hf
    rw [c9frame_mean j (by omega)]
    norm_num
  have hp : ∀ f ∈ c9frames, ¬ (countAbove (grayOf f) 190 : ℚ) > 10 := by
    intro f hf
    obtain ⟨j, hj, rfl⟩ := hmem f hf
    rw [c9frame_count j (by omega)]
    norm_num
  have hbm : ∀ f ∈ c9frames, ¬ meanB (grayOf f) > 10 := by
    intro f hf
    obtain ⟨j, hj, rfl⟩ := hmem f hf
    rw [c9frame_mean j (by omega)]
    norm_num
  have hne : c9frames ≠ [] := by simp [c9frames]
  obtain ⟨h1, h2, h3, _⟩ := run_from_init c9frames hne hdim hm hp hbm
  refine ⟨?_, h2, h3⟩
  rw [h1]
  simp [c9frames]

/-- C9 counterexample: feeding the 25 synthetic 100×100 single-channel
frames (all-zero except one 255 sample each) accepts all 25 and excludes
none, but `finalize` then fails with `InsufficentData` instead of
succeeding: no frame's mean brightness (51/2000, not the 20 the claim
asserts) exceeds the background minimum brightness 10, so no background
candidate is ever selected. -/
theorem C9_counterexample :
    (runFrames initState c9frames).trail_count = 25 ∧
    (runFrames initState c9frames).excluded_images = 0 ∧
    finalize (runFrames initState c9frames)
      = .error (.insufficentData "Background image not detected") := by
  obtain ⟨h1, h2, h3⟩ := c9_run_facts
  exact ⟨h1, h2, finalize_noBg h3⟩

/-- C9 (amended): the 25 synthetic frames each have mean brightness
51/2000 (not 20 — an all-zero 100×100 frame with a single 255 sample can
only have mean 255/10000); all 25 are accepted and none excluded, but no
background candidate is ever selected (51/2000 is below the minimum
brightness 10), so `finalize` fails with `InsufficentData` rather than
producing an output image. -/
theorem C9_scenario (j0 : ℕ) (hj0 : j0 < 25) :
    meanB (grayOf (c9frame j0)) = 51/2000 ∧
    (runFrames initState c9frames).trail_count = 25 ∧
    (runFrames initState c9frames).excluded_images = 0 ∧
    (runFrames initState c9frames).background_image = none ∧
    finalize (runFrames initState c9frames)
      = .error (.insufficentData "Background image not detected") := by
  obtain ⟨h1, h2, h3⟩ := c9_run_facts
  exact ⟨c9frame_mean j0 (by omega), h1, h2, h3, finalize_noBg h3⟩

/-- C9 witness: the scenario facts instantiated at the first frame. -/
theorem C9_witness :
    meanB (grayOf (c9frame 0)) = 51/2000 ∧
    (runFrames initState c9frames).trail_count = 25 ∧
    (runFrames initState c9frames).excluded_images = 0 ∧
    (runFrames initState c9frames).background_image = none ∧
    finalize (runFrames initState c9frames)
      = .error (.insufficentData "Background image not detected") :=
  C9_scenario 0 (by norm_num)

/-- C10: in the per-frame compositing step and in the finalization
composite alike, the two masked operands of the saturating `cv2.add` have
disjoint support, so the addition never saturates and the whole
mask-complement-and-add computation equals the simple pixelwise selection
(`selectComposite`): the star-source sample where the mask is set, the
background-source sample elsewhere. -/
theorem C10_masked_add_is_selection :
    (∀ (s : TrailState) (t : Image) (q : ℚ) (f : Image),
      s.trail_image = some t → s.pixels_cutoff = some q →
      ¬ meanB (grayOf f) > s.max_brightness →
      ¬ (countAbove (grayOf f) s.mask_threshold : ℚ) > q →
      t.height = f.height → t.width = f.width → t.channels = f.channels →
      (∀ r c k, t.px r c k ≤ 255) → (∀ r c k, f.px r c k ≤ 255) →
      (∀ r c k,
        (maskAnd t (bitwiseNot (thresholdBin (grayOf f) s.mask_threshold))).px r c k = 0 ∨
        (maskAnd f (thresholdBin (grayOf f) s.mask_threshold)).px r c k = 0) ∧
      ∃ t', (processImage s f).1.trail_image = some t' ∧
        ∀ r c k, t'.px r c k
          = (selectComposite f t (grayOf f) s.mask_threshold).px r c k)
    ∧ (∀ (s : TrailState) (t bg out : Image),
        s.trail_image = some t → s.background_image = some bg →
        finalize s = .ok out →
        (∀ r c k, t.px r c k ≤ 255) → (∀ r c k, bg.px r c k ≤ 255) →
        (∀ r c k,
          (maskAnd bg (bitwiseNot (thresholdBin (grayOf t) 10))).px r c k = 0 ∨
          (maskAnd t (thresholdBin (grayOf t) 10)).px r c k = 0) ∧
        ∀ r c k, out.px r c k = (selectComposite t bg (grayOf t) 10).px r c k) := by
  constructor
  · intro s t q f ht hq hm hp hh hw hc hbt hbf
    refine ⟨fun r c k =>
      composite_operands_disjoint t f (grayOf f) s.mask_threshold r c k, ?_⟩
    obtain ⟨htr, _, _, _⟩ := processImage_accepted_result ht hq hm hp hh hw hc
    refine ⟨newTrail t f s.mask_threshold, htr, fun r c k => ?_⟩
    rw [newTrail_px]
    by_cases hx : s.mask_threshold < (grayOf f).px r c 0
    · simp [selectComposite, hx, Nat.min_eq_left (hbf r c k)]
    · simp [selectComposite, hx, Nat.min_eq_left (hbt r c k)]
  · intro s t bg out ht hbg hok hbt hbb
    have hout := finalize_ok_inv ht hbg hok
    refine ⟨fun r c k =>
      composite_operands_disjoint bg t (grayOf t) 10 r c k, fun r c k => ?_⟩
    rw [hout, composite_px]
    by_cases hx : 10 < (grayOf t).px r c 0
    · simp [selectComposite, hx, Nat.min_eq_left (hbt r c k)]
    · simp [selectComposite, hx, Nat.min_eq_left (hbb r c k)]

/-- C10 witness: both halves instantiated at the concrete state `stW`. -/
theorem C10_witness :
    ((∀ r c k,
        (maskAnd (img1 20) (bitwiseNot (thresholdBin (grayOf (img1 30))
          stW.mask_threshold))).px r c k = 0 ∨
        (maskAnd (img1 30) (thresholdBin (grayOf (img1 30))
          stW.mask_threshold)).px r c k = 0) ∧
      ∃ t', (processImage stW (img1 30)).1.trail_image = some t' ∧
        ∀ r c k, t'.px r c k
          = (selectComposite (img1 30) (img1 20) (grayOf (img1 30))
              stW.mask_threshold).px r c k)
    ∧ ((∀ r c k,
        (maskAnd (img1 15) (bitwiseNot (thresholdBin (grayOf (img1 20)) 10))).px r c k = 0 ∨
        (maskAnd (img1 20) (thresholdBin (grayOf (img1 20)) 10)).px r c k = 0) ∧
      ∀ r c k,
        (satAdd (maskAnd (img1 15) (bitwiseNot (thresholdBin (grayOf (img1 20)) 10)))
          (maskAnd (img1 20) (thresholdBin (grayOf (img1 20)) 10))).px r c k
        = (selectComposite (img1 20) (img1 15) (grayOf (img1 20)) 10).px r c k) :=
  ⟨C10_masked_add_is_selection.1 stW (img1 20) 5 (img1 30) rfl rfl
      (by norm_num [meanB, grayOf, img1, stW, initState, Finset.sum_range_succ])
      (by
        have h : countAbove (grayOf (img1 30)) stW.mask_threshold = 0 := by decide
        rw [h]
        norm_num)
      rfl rfl rfl
      (fun _ _ _ => by norm_num [img1])
      (fun _ _ _ => by norm_num [img1]),
    C10_masked_add_is_selection.2 stW (img1 20) (img1 15) _ rfl rfl
      (finalize_ok rfl rfl (by norm_num [stW]) rfl rfl rfl)
      (fun _ _ _ => by norm_num [img1])
      (fun _ _ _ => by norm_num [img1])⟩

end StarTrails
